import Mathlib

/-!
Shallow embedding of the balance-ledger / request-lifecycle core of the
comin-leave-management-service repository.

Modelling conventions:
* A calendar date (Go `time.Time` at day granularity; the schema stores
  `DATE` columns) is its day number relative to the Unix epoch
  (day 0 = 1970-01-01, a Thursday).
* Go `uuid.UUID` values are modelled as `Nat`, with `0` playing the role
  of `uuid.Nil`.
* The `float64` day quantities (all of which the code mutates only by
  addition and subtraction of whole- or two-decimal values) are modelled
  as `Int`.
* A GORM transaction (`db.Transaction(func(tx) ...)`) is modelled as an
  all-or-nothing function `Db → Except DbError Db`: an `.error` result
  means the transaction rolled back, so no intermediate write persists.
* Statuses are the literal strings the Go code compares against.
-/

namespace LeaveManagement

/-- Go `time.Weekday`: day 0 of the epoch (1970-01-01) is Thursday, and
`time.Weekday` numbers Sunday = 0, …, Saturday = 6, so the weekday of
day `d` is `(d + 4) mod 7`. `calculateWorkingDays` (leaves.go) skips a
day exactly when its weekday is Saturday or Sunday. -/
def isWeekend (day : Int) : Bool :=
  (day + 4).emod 7 == 6 || (day + 4).emod 7 == 0

/-- Go `time.Time.Year()` of an epoch day number: the civil (proleptic
Gregorian) year, computed by the standard days-to-civil-date algorithm.
Serves as the `request.StartDate.Year()` balance key in the repository. -/
def civilYear (day : Int) : Int :=
  let z := day + 719468
  let era := Int.fdiv z 146097
  let doe := z - era * 146097
  let yoe := Int.ediv (doe - Int.ediv doe 1460 + Int.ediv doe 36524 - Int.ediv doe 146096) 365
  let y := yoe + era * 400
  let doy := doe - (365 * yoe + Int.ediv yoe 4 - Int.ediv yoe 100)
  let mp := Int.ediv (5 * doy + 2) 153
  let m := mp + (if mp < 10 then 3 else -9)
  if m ≤ 2 then y + 1 else y

/-- The loop body of `calculateWorkingDays` (leaves.go, 167-179), with the
number of remaining iterations made explicit: starting at day `cur`, visit
`n` consecutive days and count those that are not weekend days. -/
def workingDaysFrom : Nat → Int → Int
  | 0, _ => 0
  | n + 1, cur => (if isWeekend cur then 0 else 1) + workingDaysFrom n (cur + 1)

/-- `calculateWorkingDays(start, end)` (leaves.go, 167-179): iterate `current`
from `start` while `current ≤ end`, counting the days whose weekday is not
Saturday and not Sunday.  The Go loop runs `end - start + 1` times when
`start ≤ end` and zero times otherwise. -/
def calculateWorkingDays (startDay stopDay : Int) : Int :=
  workingDaysFrom (stopDay - startDay + 1).toNat startDay

/-- `domain.LeaveType` (leaves.go, 12-24); only the fields the modelled
operations read are carried. -/
structure LeaveType where
  id : Nat
  organizationId : Nat
  name : String
  defaultDays : Int
  minDaysNotice : Int
  maxDaysPerRequest : Int
  deriving DecidableEq

/-- `domain.LeaveBalance` (leaves.go, 27-38).  The migration declares
`remaining_days DECIMAL(5,2) GENERATED ALWAYS AS
(total_days - used_days - pending_days) STORED`, so the persisted row state
consists of the three counters and `remaining_days` is recomputed by the
database on every write; see `remainingDays` below for the accessor. -/
structure LeaveBalance where
  id : Nat
  organizationId : Nat
  employeeId : Nat
  leaveTypeId : Nat
  year : Int
  totalDays : Int
  usedDays : Int
  pendingDays : Int
  deriving DecidableEq

/-- The `remaining_days` generated column of the `leave_balances` table
(migration 000001): always derived from the three stored counters. -/
def remainingDays (b : LeaveBalance) : Int :=
  b.totalDays - b.usedDays - b.pendingDays

/-- `domain.LeaveRequest` (leaves.go, 41-55). -/
structure LeaveRequest where
  id : Nat
  organizationId : Nat
  employeeId : Nat
  leaveTypeId : Nat
  startDate : Int
  endDate : Int
  days : Int
  status : String
  reason : String
  approvedBy : Option Nat
  deriving DecidableEq

/-- `domain.LeaveRequestHistory` (leaves.go, 58-65). -/
structure LeaveRequestHistory where
  id : Nat
  leaveRequestId : Nat
  action : String
  status : String
  comments : String
  performedBy : Nat
  deriving DecidableEq

/-- `domain.LeaveBalanceAdjustment` (leave_adjustment.go, 9-20). -/
structure LeaveBalanceAdjustment where
  id : Nat
  leaveBalanceId : Nat
  adjustment : Int
  reason : String
  performedBy : Nat
  approvedBy : Option Nat
  status : String
  deriving DecidableEq

/-- `domain.CreateLeaveRequestRequest` (leaves.go, 96-105): the
client-supplied payload, including the `TotalDays` and `Status` fields
that the service never reads. -/
structure CreateLeaveRequestRequest where
  employeeId : Nat
  leaveTypeId : Nat
  startDate : Int
  endDate : Int
  totalDays : Int
  status : String
  reason : String
  comment : String
  deriving DecidableEq

/-- The persistent store the repository operates on: one list per table. -/
structure Db where
  leaveTypes : List LeaveType
  leaveRequests : List LeaveRequest
  leaveBalances : List LeaveBalance
  histories : List LeaveRequestHistory
  adjustments : List LeaveBalanceAdjustment
  deriving DecidableEq

/-- Errors surfaced by the modelled repository code: GORM record-not-found
from a failed `First`, and the two GORM-hook validation errors raised in
`BeforeCreate` / `BeforeUpdate` (leaves.go, 139-154). -/
inductive DbError
  | recordNotFound
  | invalidDateRange
  | approverRequired
  deriving DecidableEq

/-- Errors of `leaveService.CreateLeaveRequest` (leave_service.go, 150-190),
one constructor per distinct `errors.New` site plus propagation of
repository errors. -/
inductive SvcError
  | employeeRequired
  | leaveTypeRequired
  | startAfterEnd
  | leaveTypeNotFound
  | leaveTypeNotInOrg
  | maxDaysExceeded
  | db (e : DbError)
  deriving DecidableEq

/-- GORM `First` with an `id = ?` filter on the leave-type table. -/
def findLeaveTypeById (ts : List LeaveType) (id : Nat) : Option LeaveType :=
  ts.find? fun t => t.id == id

/-- GORM `First` with the `employee_id / leave_type_id / year` filter used
by `CreateLeaveRequest` and `UpdateLeaveRequest` (leave_repository.go). -/
def findBalanceByKey (bs : List LeaveBalance) (emp lt : Nat) (yr : Int) :
    Option LeaveBalance :=
  bs.find? fun b => b.employeeId == emp && b.leaveTypeId == lt && b.year == yr

/-- GORM `First` by primary key on the balances table. -/
def findBalanceById (bs : List LeaveBalance) (id : Nat) : Option LeaveBalance :=
  bs.find? fun b => b.id == id

/-- GORM `First` by primary key on the requests table. -/
def findRequestById (rs : List LeaveRequest) (id : Nat) : Option LeaveRequest :=
  rs.find? fun r => r.id == id

/-- GORM `First` by primary key on the adjustments table. -/
def findAdjustmentById (as_ : List LeaveBalanceAdjustment) (id : Nat) :
    Option LeaveBalanceAdjustment :=
  as_.find? fun a => a.id == id

/-- GORM `Save` of a balance row: update-in-place by primary key. -/
def saveBalance (bs : List LeaveBalance) (b : LeaveBalance) : List LeaveBalance :=
  bs.map fun x => if x.id == b.id then b else x

/-- GORM `Save` of a request row: update-in-place by primary key. -/
def saveRequest (rs : List LeaveRequest) (r : LeaveRequest) : List LeaveRequest :=
  rs.map fun x => if x.id == r.id then r else x

/-- GORM `Save` of an adjustment row: update-in-place by primary key. -/
def saveAdjustment (as_ : List LeaveBalanceAdjustment) (a : LeaveBalanceAdjustment) :
    List LeaveBalanceAdjustment :=
  as_.map fun x => if x.id == a.id then a else x

/-- `LeaveRequest.BeforeCreate` (leaves.go, 139-147): reject when the start
date is strictly after the end date, otherwise freeze `Days` to the
working-day count of the inclusive range. -/
def beforeCreate (r : LeaveRequest) : Except DbError LeaveRequest :=
  if r.endDate < r.startDate then .error .invalidDateRange
  else .ok { r with days := calculateWorkingDays r.startDate r.endDate }

/-- `LeaveRequest.BeforeUpdate` (leaves.go, 149-154): an approved request
must carry an approver. -/
def beforeUpdate (r : LeaveRequest) : Except DbError Unit :=
  if r.status == "approved" && r.approvedBy.isNone then .error .approverRequired
  else .ok ()

/-- `LeaveRequest.CanCancel` (leaves.go, 157-160), with the ambient clock
passed explicitly.  Defined by the domain layer but invoked by no caller
in the repository. -/
def LeaveRequest.canCancel (l : LeaveRequest) (now : Int) : Bool :=
  l.status == "pending" || (l.status == "approved" && decide (now < l.startDate))

/-- `LeaveRequest.CanApprove` (leaves.go, 162-164).  Defined by the domain
layer but invoked by no caller in the repository. -/
def LeaveRequest.canApprove (l : LeaveRequest) : Bool :=
  l.status == "pending"

/-- The `switch request.Status` block of `UpdateLeaveRequest`
(leave_repository.go, 194-200): `approved` moves the day count from
pending to used; `rejected` and `cancelled` subtract it from pending;
any other status leaves the balance untouched. -/
def applyStatusEffect (balance : LeaveBalance) (status : String) (days : Int) :
    LeaveBalance :=
  if status == "approved" then
    { balance with pendingDays := balance.pendingDays - days,
                   usedDays := balance.usedDays + days }
  else if status == "rejected" || status == "cancelled" then
    { balance with pendingDays := balance.pendingDays - days }
  else balance

/-- `leaveRepository.CreateLeaveRequest` (leave_repository.go, 151-169):
inside one transaction, insert the request (running `BeforeCreate`), load
the balance keyed by (employee, leave type, start-date year), add the
request's day count to its `pending_days` and save it.  Any error aborts
the transaction, so an `.error` result leaves the store untouched. -/
def repoCreateLeaveRequest (db : Db) (request : LeaveRequest) :
    Except DbError (Db × LeaveRequest) :=
  match beforeCreate request with
  | .error e => .error e
  | .ok request =>
    match findBalanceByKey db.leaveBalances request.employeeId request.leaveTypeId
        (civilYear request.startDate) with
    | none => .error .recordNotFound
    | some balance =>
      let balance := { balance with pendingDays := balance.pendingDays + request.days }
      .ok ({ db with leaveRequests := db.leaveRequests ++ [request],
                     leaveBalances := saveBalance db.leaveBalances balance },
           request)

/-- `leaveRepository.UpdateLeaveRequest` (leave_repository.go, 177-209):
inside one transaction, load the old request by id; if the status changed,
load the balance keyed by (employee, leave type, start-date year) and apply
the status switch to it; finally save the request (running `BeforeUpdate`).
No transition-table check and no history write occurs here. -/
def repoUpdateLeaveRequest (db : Db) (request : LeaveRequest) : Except DbError Db :=
  match findRequestById db.leaveRequests request.id with
  | none => .error .recordNotFound
  | some oldRequest =>
    if oldRequest.status ≠ request.status then
      match findBalanceByKey db.leaveBalances request.employeeId request.leaveTypeId
          (civilYear request.startDate) with
      | none => .error .recordNotFound
      | some balance =>
        match beforeUpdate request with
        | .error e => .error e
        | .ok _ =>
          .ok { db with
                leaveBalances :=
                  saveBalance db.leaveBalances
                    (applyStatusEffect balance request.status request.days),
                leaveRequests := saveRequest db.leaveRequests request }
    else
      match beforeUpdate request with
      | .error e => .error e
      | .ok _ => .ok { db with leaveRequests := saveRequest db.leaveRequests request }

/-- `leaveRepository.GetOverlappingRequests` (leave_repository.go, 226-234):
requests of the employee in status pending or approved whose row satisfies
the SQL disjunction `start_date BETWEEN ? AND ? OR end_date BETWEEN ? AND ?
OR (start_date <= ? AND end_date >= ?)`. -/
def repoGetOverlappingRequests (db : Db) (employeeId : Nat)
    (startDate endDate : Int) : List LeaveRequest :=
  db.leaveRequests.filter fun r =>
    r.employeeId == employeeId &&
    (r.status == "pending" || r.status == "approved") &&
    ((decide (startDate ≤ r.startDate) && decide (r.startDate ≤ endDate)) ||
     (decide (startDate ≤ r.endDate) && decide (r.endDate ≤ endDate)) ||
     (decide (r.startDate ≤ startDate) && decide (r.endDate ≥ endDate)))

/-- `leaveRepository.CreateLeaveRequestHistory` (leave_repository.go,
290-292): a plain insert.  No repository or service code path invokes it. -/
def repoCreateLeaveRequestHistory (db : Db) (history : LeaveRequestHistory) : Db :=
  { db with histories := db.histories ++ [history] }

/-- `leaveRepository.UpdateBalanceAdjustment` (leave_repository.go, 411-432):
inside one transaction, load the old adjustment by id; only when the status
changed and the new status is `approved`, load the referenced balance and
add the signed delta to its `total_days`; finally save the adjustment. -/
def repoUpdateBalanceAdjustment (db : Db) (adjustment : LeaveBalanceAdjustment) :
    Except DbError Db :=
  match findAdjustmentById db.adjustments adjustment.id with
  | none => .error .recordNotFound
  | some oldAdjustment =>
    if oldAdjustment.status ≠ adjustment.status ∧ adjustment.status = "approved" then
      match findBalanceById db.leaveBalances adjustment.leaveBalanceId with
      | none => .error .recordNotFound
      | some balance =>
        .ok { db with
              leaveBalances :=
                saveBalance db.leaveBalances
                  { balance with totalDays := balance.totalDays + adjustment.adjustment },
              adjustments := saveAdjustment db.adjustments adjustment }
    else
      .ok { db with adjustments := saveAdjustment db.adjustments adjustment }

/-- `leaveService.GetLeaveType` (leave_service.go, 54-66): look the type up
by id and verify organization ownership. -/
def getLeaveType (db : Db) (orgId id : Nat) : Except SvcError LeaveType :=
  match findLeaveTypeById db.leaveTypes id with
  | none => .error .leaveTypeNotFound
  | some leaveType =>
    if leaveType.organizationId ≠ orgId then .error .leaveTypeNotInOrg
    else .ok leaveType

/-- The `domain.LeaveRequest` literal that `leaveService.CreateLeaveRequest`
builds (leave_service.go, 175-182): a fresh row carrying only the
employee, leave type, dates and reason of the payload, with status
hard-coded to `pending`; `OrganizationID`, `ID` and `Days` are left at
their zero values (the repository hook fills in `Days`). -/
def requestFromPayload (req : CreateLeaveRequestRequest) : LeaveRequest :=
  { id := 0, organizationId := 0, employeeId := req.employeeId,
    leaveTypeId := req.leaveTypeId, startDate := req.startDate,
    endDate := req.endDate, days := 0, status := "pending",
    reason := req.reason, approvedBy := none }

/-- `leaveService.CreateLeaveRequest` (leave_service.go, 150-190): validate
the identifiers and the date order, look up the leave type, compare the Go
local `totalDays := int(endDate.Sub(startDate).Milliseconds() / 86400000)`
— which at day granularity is exactly `endDate - startDate`, written
inline here — against `MaxDaysPerRequest`, then build
`requestFromPayload req` (ignoring the client-supplied `Status` and
`TotalDays`) and hand it to the repository. -/
def serviceCreateLeaveRequest (db : Db) (orgId : Nat)
    (req : CreateLeaveRequestRequest) : Except SvcError (Db × LeaveRequest) :=
  if req.employeeId = 0 then .error .employeeRequired
  else if req.leaveTypeId = 0 then .error .leaveTypeRequired
  else if req.endDate < req.startDate then .error .startAfterEnd
  else
    match getLeaveType db orgId req.leaveTypeId with
    | .error e => .error e
    | .ok leaveType =>
      if leaveType.maxDaysPerRequest < req.endDate - req.startDate then
        .error .maxDaysExceeded
      else
        match repoCreateLeaveRequest db (requestFromPayload req) with
        | .error e => .error (.db e)
        | .ok res => .ok res

/-! ### Working-day calculator: loop versus inclusive-range count -/

theorem workingDaysFrom_card (n : Nat) :
    ∀ s : Int, workingDaysFrom n s =
      (((Finset.Icc s (s + n - 1)).filter fun d => isWeekend d = false).card : Int) := by
  induction n with
  | zero =>
    intro s
    have h : Finset.Icc s (s + (0 : Nat) - 1) = ∅ := by
      apply Finset.Icc_eq_empty
      intro hle
      omega
    simp [workingDaysFrom, h]
  | succ n ih =>
    intro s
    have hins : Finset.Icc s (s + (n + 1 : Nat) - 1) =
        insert s (Finset.Icc (s + 1) (s + (n + 1 : Nat) - 1)) := by
      ext d
      simp only [Finset.mem_Icc, Finset.mem_insert]
      push_cast
      omega
    have hnot : s ∉ Finset.Icc (s + 1) (s + (n + 1 : Nat) - 1) := by
      simp only [Finset.mem_Icc]
      omega
    have htail : s + 1 + (n : Nat) - 1 = s + (n + 1 : Nat) - 1 := by
      push_cast
      omega
    have ihs := ih (s + 1)
    rw [htail] at ihs
    rw [hins, Finset.filter_insert]
    simp only [workingDaysFrom]
    by_cases hw : isWeekend s
    · rw [if_pos hw, if_neg (by simp [hw]), ihs]
      ring
    · have hw' : isWeekend s = false := by simpa using hw
      rw [if_neg hw, if_pos hw',
        Finset.card_insert_of_not_mem (fun hmem => hnot (Finset.mem_of_mem_filter s hmem)),
        ihs]
      push_cast
      ring

theorem calculateWorkingDays_card (s e : Int) :
    calculateWorkingDays s e =
      (((Finset.Icc s e).filter fun d => isWeekend d = false).card : Int) := by
  unfold calculateWorkingDays
  rcases le_or_lt s e with h | h
  · have hn : s + ((e - s + 1).toNat : Int) - 1 = e := by omega
    rw [workingDaysFrom_card, hn]
  · have hn : (e - s + 1).toNat = 0 := by omega
    have hempty : Finset.Icc s e = ∅ := Finset.Icc_eq_empty (by omega)
    rw [hn, hempty]
    simp [workingDaysFrom]

/-! ### Behaviour of the repository transactions -/

theorem repoCreateLeaveRequest_ok (db : Db) (req : LeaveRequest) (b : LeaveBalance)
    (hrange : req.startDate ≤ req.endDate)
    (hb : findBalanceByKey db.leaveBalances req.employeeId req.leaveTypeId
        (civilYear req.startDate) = some b) :
    repoCreateLeaveRequest db req =
      .ok ({ db with
             leaveRequests := db.leaveRequests ++
               [{ req with days := calculateWorkingDays req.startDate req.endDate }],
             leaveBalances := saveBalance db.leaveBalances
               { b with pendingDays :=
                   b.pendingDays + calculateWorkingDays req.startDate req.endDate } },
           { req with days := calculateWorkingDays req.startDate req.endDate }) := by
  have h1 : ¬ (req.endDate < req.startDate) := by omega
  simp only [repoCreateLeaveRequest, beforeCreate, if_neg h1, hb]

theorem repoCreateLeaveRequest_noBalance (db : Db) (req : LeaveRequest)
    (hrange : req.startDate ≤ req.endDate)
    (hb : findBalanceByKey db.leaveBalances req.employeeId req.leaveTypeId
        (civilYear req.startDate) = none) :
    repoCreateLeaveRequest db req = .error .recordNotFound := by
  have h1 : ¬ (req.endDate < req.startDate) := by omega
  simp only [repoCreateLeaveRequest, beforeCreate, if_neg h1, hb]

theorem repoCreateLeaveRequest_ok_inv (db : Db) (q : LeaveRequest) (db2 : Db)
    (r : LeaveRequest) (h : repoCreateLeaveRequest db q = .ok (db2, r)) :
    r = { q with days := calculateWorkingDays q.startDate q.endDate } := by
  unfold repoCreateLeaveRequest beforeCreate at h
  by_cases h1 : q.endDate < q.startDate
  · rw [if_pos h1] at h
    exact absurd h (by simp)
  · simp only [if_neg h1] at h
    split at h
    · exact absurd h (by simp)
    · rw [Except.ok.injEq, Prod.mk.injEq] at h
      exact h.2.symm

theorem repoUpdateLeaveRequest_ok (db : Db) (req old : LeaveRequest) (b : LeaveBalance)
    (hold : findRequestById db.leaveRequests req.id = some old)
    (hne : old.status ≠ req.status)
    (hb : findBalanceByKey db.leaveBalances req.employeeId req.leaveTypeId
        (civilYear req.startDate) = some b)
    (hhook : beforeUpdate req = .ok ()) :
    repoUpdateLeaveRequest db req =
      .ok { db with
            leaveBalances :=
              saveBalance db.leaveBalances (applyStatusEffect b req.status req.days),
            leaveRequests := saveRequest db.leaveRequests req } := by
  simp only [repoUpdateLeaveRequest, hold, if_pos hne, hb, hhook]

theorem repoUpdateLeaveRequest_histories (db : Db) (req : LeaveRequest) (db2 : Db)
    (h : repoUpdateLeaveRequest db req = .ok db2) : db2.histories = db.histories := by
  unfold repoUpdateLeaveRequest at h
  split at h
  · exact absurd h (by simp)
  · split at h
    · split at h
      · exact absurd h (by simp)
      · split at h
        · exact absurd h (by simp)
        · rw [Except.ok.injEq] at h
          rw [← h]
    · split at h
      · exact absurd h (by simp)
      · rw [Except.ok.injEq] at h
        rw [← h]

/-! ### Sample rows used by concrete witnesses and counterexamples -/

/-- A ledger row with `total_days = 10`, `used_days = 0`, `pending_days = 0`. -/
def balA : LeaveBalance :=
  { id := 1, organizationId := 1, employeeId := 1, leaveTypeId := 1, year := 1970,
    totalDays := 10, usedDays := 0, pendingDays := 0 }

/-- A three-working-day request (Monday 1970-01-05 to Wednesday 1970-01-07). -/
def reqA : LeaveRequest :=
  { id := 7, organizationId := 1, employeeId := 1, leaveTypeId := 1,
    startDate := 4, endDate := 6, days := 0, status := "pending",
    reason := "family", approvedBy := none }

/-- Store holding only the ledger row `balA`. -/
def dbA : Db :=
  { leaveTypes := [], leaveRequests := [], leaveBalances := [balA],
    histories := [], adjustments := [] }

/-- Completely empty store. -/
def dbEmpty : Db :=
  { leaveTypes := [], leaveRequests := [], leaveBalances := [],
    histories := [], adjustments := [] }

/-- Discriminator for the success constructor of `Except`. -/
def exceptOk {ε α : Type} : Except ε α → Bool
  | .ok _ => true
  | .error _ => false

instance exceptDecidableEq {ε α : Type} [DecidableEq ε] [DecidableEq α] :
    DecidableEq (Except ε α)
  | .error e, .error f =>
    if h : e = f then .isTrue (by rw [h])
    else .isFalse (by intro hc; injection hc with h2; exact h h2)
  | .error _, .ok _ => .isFalse (by intro hc; exact Except.noConfusion hc)
  | .ok _, .error _ => .isFalse (by intro hc; exact Except.noConfusion hc)
  | .ok x, .ok y =>
    if h : x = y then .isTrue (by rw [h])
    else .isFalse (by intro hc; injection hc with h2; exact h h2)

/-! ### Claim theorems -/

/-- C1: when a ledger row exists for the (employee, leave type, start-date
year) key, `CreateLeaveRequest` creates the request row (with its frozen
working-day count) and increments exactly that ledger's `pending_days` by
the request's day count, leaving `total_days` and `used_days` unchanged;
when no ledger row exists, the transaction fails with record-not-found,
and since the whole operation is an all-or-nothing transaction, no request
row and no balance write persists. -/
theorem createLeaveRequest_reserves_or_aborts (db : Db) (req : LeaveRequest)
    (hrange : req.startDate ≤ req.endDate) :
    (∀ b, findBalanceByKey db.leaveBalances req.employeeId req.leaveTypeId
        (civilYear req.startDate) = some b →
      repoCreateLeaveRequest db req =
        .ok ({ db with
               leaveRequests := db.leaveRequests ++
                 [{ req with days := calculateWorkingDays req.startDate req.endDate }],
               leaveBalances := saveBalance db.leaveBalances
                 { b with pendingDays :=
                     b.pendingDays + calculateWorkingDays req.startDate req.endDate } },
             { req with days := calculateWorkingDays req.startDate req.endDate })) ∧
    (findBalanceByKey db.leaveBalances req.employeeId req.leaveTypeId
        (civilYear req.startDate) = none →
      repoCreateLeaveRequest db req = .error .recordNotFound) :=
  ⟨fun b hb => repoCreateLeaveRequest_ok db req b hrange hb,
   fun hb => repoCreateLeaveRequest_noBalance db req hrange hb⟩

/-- Witness for C1: on the store holding only `balA`, the three-working-day
request is created and `pending_days` becomes 3 with `total_days` and
`used_days` untouched; on the empty store the same request fails. -/
theorem createLeaveRequest_reserves_or_aborts_witness :
    repoCreateLeaveRequest dbA reqA =
      .ok ({ dbA with
             leaveRequests := [{ reqA with days := 3 }],
             leaveBalances := [{ balA with pendingDays := 3 }] },
           { reqA with days := 3 }) ∧
    repoCreateLeaveRequest dbEmpty reqA = .error .recordNotFound := by
  constructor
  · have h := (createLeaveRequest_reserves_or_aborts dbA reqA (by decide)).1 balA (by decide)
    rw [h]
    decide
  · exact (createLeaveRequest_reserves_or_aborts dbEmpty reqA (by decide)).2 (by decide)

/-- C4: for start ≤ end the working-day calculator returns the number of
days of the inclusive range whose weekday is neither Saturday nor Sunday
(it is a pure function, hence deterministic), and when start is strictly
after end the `BeforeCreate` guard fails with the invalid-range error. -/
theorem workingDayCalculator_spec (req : LeaveRequest) :
    (req.startDate ≤ req.endDate →
      calculateWorkingDays req.startDate req.endDate =
        (((Finset.Icc req.startDate req.endDate).filter
            fun d => isWeekend d = false).card : Int)) ∧
    (req.endDate < req.startDate → beforeCreate req = .error .invalidDateRange) :=
  ⟨fun _ => calculateWorkingDays_card req.startDate req.endDate,
   fun h => by simp [beforeCreate, if_pos h]⟩

/-- Witness for C4: Monday-to-Friday counts 5, Saturday-to-Sunday counts 0,
Friday-to-Monday counts 2 (days 4..8, 9..10, 8..11 of the epoch), the
weekday-count characterisation holds on the first of these, and an
inverted range is rejected by the `BeforeCreate` guard. -/
theorem workingDayCalculator_spec_witness :
    (calculateWorkingDays 4 8 =
      (((Finset.Icc (4 : Int) 8).filter fun d => isWeekend d = false).card : Int)) ∧
    calculateWorkingDays 4 8 = 5 ∧
    calculateWorkingDays 9 10 = 0 ∧
    calculateWorkingDays 8 11 = 2 ∧
    beforeCreate { reqA with startDate := 12, endDate := 11 } =
      .error .invalidDateRange := by
  refine ⟨?_, by decide, by decide, by decide, ?_⟩
  · exact (workingDayCalculator_spec { reqA with startDate := 4, endDate := 8 }).1 (by decide)
  · exact (workingDayCalculator_spec { reqA with startDate := 12, endDate := 11 }).2 (by decide)

/-- The reserve-approve-cancel scenario of C2, run end to end: reserve the
three-working-day request against `balA`, approve it, then cancel the
approved request (its start date, epoch day 4, lies after any clock the
scenario cares about; the code never consults a clock). -/
def reserveApproveCancel : Except DbError Db :=
  match repoCreateLeaveRequest dbA reqA with
  | .error e => .error e
  | .ok (db1, r1) =>
    match repoUpdateLeaveRequest db1 { r1 with status := "approved", approvedBy := some 2 } with
    | .error e => .error e
    | .ok db2 => repoUpdateLeaveRequest db2 { r1 with status := "cancelled", approvedBy := some 2 }

/-- The (used_days, pending_days) pair of ledger row 1 after the C2 scenario. -/
def reserveApproveCancelCounters : Option (Int × Int) :=
  match reserveApproveCancel with
  | .ok db => (findBalanceById db.leaveBalances 1).map fun b => (b.usedDays, b.pendingDays)
  | .error _ => none

/-- Counterexample to C2: after reserve 3, approve, cancel, the ledger ends
at `used_days = 3, pending_days = -3`, not at the claimed full reversal
`used_days = 0, pending_days = 0` — the cancellation branch of
`UpdateLeaveRequest` subtracts from `pending_days` regardless of the
previous status being approved. -/
theorem reserveApproveCancel_not_reversed :
    reserveApproveCancelCounters = some (3, -3) ∧
    reserveApproveCancelCounters ≠ some (0, 0) := by
  constructor
  · decide
  · decide

/-- C2 amended: approval of a pending request moves the day count from
`pending_days` to `used_days`, but cancelling an approved request applies
the same `pending_days` subtraction as any cancellation (never touching
`used_days` and never consulting the request's start date), so the
scenario of C2 ends at `used_days = 3, pending_days = -3` instead of a
full reversal. -/
theorem updateLeaveRequest_cancel_subtracts_pending (db : Db)
    (req old : LeaveRequest) (b : LeaveBalance)
    (hold : findRequestById db.leaveRequests req.id = some old)
    (hb : findBalanceByKey db.leaveBalances req.employeeId req.leaveTypeId
        (civilYear req.startDate) = some b) :
    (old.status ≠ "approved" → req.status = "approved" → req.approvedBy ≠ none →
      repoUpdateLeaveRequest db req =
        .ok { db with
              leaveBalances := saveBalance db.leaveBalances
                { b with pendingDays := b.pendingDays - req.days,
                         usedDays := b.usedDays + req.days },
              leaveRequests := saveRequest db.leaveRequests req }) ∧
    (old.status = "approved" → req.status = "cancelled" →
      repoUpdateLeaveRequest db req =
        .ok { db with
              leaveBalances := saveBalance db.leaveBalances
                { b with pendingDays := b.pendingDays - req.days },
              leaveRequests := saveRequest db.leaveRequests req }) := by
  constructor
  · intro hne hst happr
    have hnone : req.approvedBy.isNone = false := by
      rcases hab : req.approvedBy with _ | v
      · exact absurd hab happr
      · rfl
    have hhook : beforeUpdate req = .ok () := by
      simp [beforeUpdate, hnone]
    have h := repoUpdateLeaveRequest_ok db req old b hold (by rw [hst]; exact hne) hb hhook
    rw [h]
    simp [applyStatusEffect, hst]
  · intro holdst hst
    have hne : old.status ≠ req.status := by
      rw [holdst, hst]
      decide
    have hhook : beforeUpdate req = .ok () := by
      simp [beforeUpdate, hst]
    have h := repoUpdateLeaveRequest_ok db req old b hold hne hb hhook
    rw [h]
    simp [applyStatusEffect, hst]

/-- Witness for the amended C2, instantiating both transitions concretely:
approving the pending three-day request moves 3 from pending to used, and
cancelling it afterwards subtracts 3 from pending again. -/
theorem updateLeaveRequest_cancel_subtracts_pending_witness :
    repoUpdateLeaveRequest
        { dbA with
          leaveRequests := [{ reqA with days := 3 }],
          leaveBalances := [{ balA with pendingDays := 3 }] }
        { reqA with days := 3, status := "approved", approvedBy := some 2 } =
      .ok { dbA with
            leaveRequests := [{ reqA with days := 3, status := "approved", approvedBy := some 2 }],
            leaveBalances := [{ balA with usedDays := 3 }] } ∧
    repoUpdateLeaveRequest
        { dbA with
          leaveRequests := [{ reqA with days := 3, status := "approved", approvedBy := some 2 }],
          leaveBalances := [{ balA with usedDays := 3 }] }
        { reqA with days := 3, status := "cancelled", approvedBy := some 2 } =
      .ok { dbA with
            leaveRequests := [{ reqA with days := 3, status := "cancelled", approvedBy := some 2 }],
            leaveBalances := [{ balA with usedDays := 3, pendingDays := -3 }] } := by
  constructor
  · have h := (updateLeaveRequest_cancel_subtracts_pending
        { dbA with
          leaveRequests := [{ reqA with days := 3 }],
          leaveBalances := [{ balA with pendingDays := 3 }] }
        { reqA with days := 3, status := "approved", approvedBy := some 2 }
        { reqA with days := 3 } { balA with pendingDays := 3 }
        (by decide) (by decide)).1 (by decide) rfl (by decide)
    rw [h]
    decide
  · have h := (updateLeaveRequest_cancel_subtracts_pending
        { dbA with
          leaveRequests := [{ reqA with days := 3, status := "approved", approvedBy := some 2 }],
          leaveBalances := [{ balA with usedDays := 3 }] }
        { reqA with days := 3, status := "cancelled", approvedBy := some 2 }
        { reqA with days := 3, status := "approved", approvedBy := some 2 }
        { balA with usedDays := 3 }
        (by decide) (by decide)).2 rfl rfl
    rw [h]
    decide

/-- An already-approved request (a terminal state per the specification). -/
def reqApproved : LeaveRequest :=
  { id := 3, organizationId := 1, employeeId := 1, leaveTypeId := 1,
    startDate := 4, endDate := 6, days := 3, status := "approved",
    reason := "family", approvedBy := some 2 }

/-- Store after that approval: ledger shows `used_days = 3, pending_days = 0`. -/
def dbApproved : Db :=
  { leaveTypes := [], leaveRequests := [reqApproved],
    leaveBalances := [{ balA with usedDays := 3 }],
    histories := [], adjustments := [] }

/-- Outcome of re-deciding the approved request to `rejected`: `none` if the
update failed, otherwise the (used_days, pending_days) pair of ledger row 1. -/
def rejectAfterApproveCounters : Option (Option (Int × Int)) :=
  match repoUpdateLeaveRequest dbApproved { reqApproved with status := "rejected" } with
  | .ok db => some ((findBalanceById db.leaveBalances 1).map fun b => (b.usedDays, b.pendingDays))
  | .error _ => none

/-- Counterexample to C5: transitioning an already-approved request to
`rejected` does not fail — it succeeds and mutates the ledger, driving
`pending_days` from 0 to -3 (and leaving `used_days` at 3), because
`UpdateLeaveRequest` performs no transition-table check at all. -/
theorem rejectAfterApprove_succeeds_and_mutates :
    rejectAfterApproveCounters = some (some (3, -3)) ∧
    rejectAfterApproveCounters ≠ none := by
  constructor
  · decide
  · decide

/-- C5 amended: the repository applies ledger deltas based solely on the
status difference, with no transition-table validation: a second
transition `approved → rejected` succeeds and subtracts the request's day
count from `pending_days`, even though the domain-layer guard
`CanApprove` (which no caller invokes) reports the request undecidable. -/
theorem updateLeaveRequest_no_transition_guard (db : Db)
    (req old : LeaveRequest) (b : LeaveBalance)
    (hold : findRequestById db.leaveRequests req.id = some old)
    (holdst : old.status = "approved") (hst : req.status = "rejected")
    (hb : findBalanceByKey db.leaveBalances req.employeeId req.leaveTypeId
        (civilYear req.startDate) = some b) :
    repoUpdateLeaveRequest db req =
      .ok { db with
            leaveBalances := saveBalance db.leaveBalances
              { b with pendingDays := b.pendingDays - req.days },
            leaveRequests := saveRequest db.leaveRequests req } ∧
    old.canApprove = false := by
  constructor
  · have hne : old.status ≠ req.status := by
      rw [holdst, hst]
      decide
    have hhook : beforeUpdate req = .ok () := by
      simp [beforeUpdate, hst]
    have h := repoUpdateLeaveRequest_ok db req old b hold hne hb hhook
    rw [h]
    simp [applyStatusEffect, hst]
  · simp [LeaveRequest.canApprove, holdst]

/-- Witness for the amended C5 on the concrete approved request. -/
theorem updateLeaveRequest_no_transition_guard_witness :
    repoUpdateLeaveRequest dbApproved { reqApproved with status := "rejected" } =
      .ok { dbApproved with
            leaveRequests := [{ reqApproved with status := "rejected" }],
            leaveBalances := [{ balA with usedDays := 3, pendingDays := -3 }] } ∧
    reqApproved.canApprove = false := by
  have h := updateLeaveRequest_no_transition_guard dbApproved
    { reqApproved with status := "rejected" } reqApproved { balA with usedDays := 3 }
    (by decide) rfl rfl (by decide)
  refine ⟨?_, h.2⟩
  rw [h.1]
  decide

/-- A pending request alongside its reservation, ready to be approved. -/
def dbPendingReserved : Db :=
  { leaveTypes := [],
    leaveRequests := [{ reqApproved with status := "pending", approvedBy := none }],
    leaveBalances := [{ balA with pendingDays := 3 }],
    histories := [], adjustments := [] }

/-- The request row update that approves the pending request. -/
def approveUpdate : LeaveRequest :=
  { reqApproved with status := "approved", approvedBy := some 2 }

/-- Number of history rows after successfully approving the pending request
(`none` if the update failed). -/
def historyCountAfterApprove : Option Nat :=
  match repoUpdateLeaveRequest dbPendingReserved approveUpdate with
  | .ok db => some db.histories.length
  | .error _ => none

/-- Counterexample to C6: a successful `pending → approved` transition
leaves the history table at its previous size (0 rows), not grown by one —
`UpdateLeaveRequest` writes no `LeaveRequestHistory` row. -/
theorem transition_appends_no_history :
    historyCountAfterApprove = some 0 ∧ historyCountAfterApprove ≠ some 1 := by
  constructor
  · decide
  · decide

/-- C6 amended: successful lifecycle transitions append no history row at
all — `UpdateLeaveRequest` leaves the history table untouched; the only
operation that writes history is the standalone
`CreateLeaveRequestHistory`, which appends exactly one row per call and
which no transition code path invokes. -/
theorem transitions_never_write_history :
    (∀ db req db2, repoUpdateLeaveRequest db req = .ok db2 →
      db2.histories = db.histories) ∧
    (∀ db h, (repoCreateLeaveRequestHistory db h).histories = db.histories ++ [h]) :=
  ⟨fun db req db2 h => repoUpdateLeaveRequest_histories db req db2 h,
   fun _ _ => rfl⟩

/-- The store after the concrete approval of `dbPendingReserved`. -/
def dbAfterApprove : Db :=
  { leaveTypes := [], leaveRequests := [approveUpdate],
    leaveBalances := [{ balA with usedDays := 3 }],
    histories := [], adjustments := [] }

/-- A sample audit row. -/
def sampleHistory : LeaveRequestHistory :=
  { id := 1, leaveRequestId := 3, action := "approve", status := "approved",
    comments := "", performedBy := 2 }

/-- Witness for the amended C6 on the concrete approval. -/
theorem transitions_never_write_history_witness :
    dbAfterApprove.histories = dbPendingReserved.histories ∧
    (repoCreateLeaveRequestHistory dbPendingReserved sampleHistory).histories =
      dbPendingReserved.histories ++ [sampleHistory] :=
  ⟨transitions_never_write_history.1 dbPendingReserved approveUpdate dbAfterApprove (by decide),
   transitions_never_write_history.2 dbPendingReserved sampleHistory⟩

/-- C7: deciding an adjustment mutates the referenced ledger's `total_days`
by the signed delta exactly when the stored status differs from the
submitted one and the submitted one is `approved`; re-submitting the
approval of an already-approved adjustment is a no-op on the ledger,
guarded by the state comparison. -/
theorem balanceAdjustment_applied_once (db : Db)
    (adj old : LeaveBalanceAdjustment) (b : LeaveBalance)
    (hold : findAdjustmentById db.adjustments adj.id = some old)
    (hb : findBalanceById db.leaveBalances adj.leaveBalanceId = some b)
    (happ : adj.status = "approved") :
    (old.status ≠ "approved" →
      repoUpdateBalanceAdjustment db adj =
        .ok { db with
              leaveBalances := saveBalance db.leaveBalances
                { b with totalDays := b.totalDays + adj.adjustment },
              adjustments := saveAdjustment db.adjustments adj }) ∧
    (old.status = "approved" →
      repoUpdateBalanceAdjustment db adj =
        .ok { db with adjustments := saveAdjustment db.adjustments adj }) := by
  constructor
  · intro hne
    have hcond : old.status ≠ adj.status ∧ adj.status = "approved" :=
      ⟨by rw [happ]; exact hne, happ⟩
    simp only [repoUpdateBalanceAdjustment, hold, if_pos hcond, hb]
  · intro heq
    have hcond : ¬ (old.status ≠ adj.status ∧ adj.status = "approved") := by
      rintro ⟨h1, h2⟩
      exact h1 (by rw [heq, h2])
    simp only [repoUpdateBalanceAdjustment, hold, if_neg hcond]

/-- A pending +2-day adjustment referencing ledger row 1. -/
def adjPending : LeaveBalanceAdjustment :=
  { id := 1, leaveBalanceId := 1, adjustment := 2, reason := "carryover",
    performedBy := 2, approvedBy := none, status := "pending" }

/-- The approval update of that adjustment. -/
def adjApproved : LeaveBalanceAdjustment :=
  { adjPending with status := "approved", approvedBy := some 2 }

/-- Store with ledger row 1 (`total_days = 10`) and the pending adjustment. -/
def dbAdj : Db :=
  { leaveTypes := [], leaveRequests := [], leaveBalances := [balA],
    histories := [], adjustments := [adjPending] }

/-- Store after the first approval: `total_days = 12`. -/
def dbAdjApproved : Db :=
  { leaveTypes := [], leaveRequests := [],
    leaveBalances := [{ balA with totalDays := 12 }],
    histories := [], adjustments := [adjApproved] }

/-- Witness for C7: approving the +2 adjustment raises `total_days` from 10
to 12, and re-submitting the same approval leaves the store — in
particular `total_days` — unchanged. -/
theorem balanceAdjustment_applied_once_witness :
    repoUpdateBalanceAdjustment dbAdj adjApproved = .ok dbAdjApproved ∧
    repoUpdateBalanceAdjustment dbAdjApproved adjApproved = .ok dbAdjApproved ∧
    (findBalanceById dbAdjApproved.leaveBalances 1).map (fun b => b.totalDays) =
      some 12 := by
  refine ⟨?_, ?_, by decide⟩
  · have h := (balanceAdjustment_applied_once dbAdj adjApproved adjPending balA
      (by decide) (by decide) rfl).1 (by decide)
    rw [h]
    decide
  · have h := (balanceAdjustment_applied_once dbAdjApproved adjApproved adjApproved
      { balA with totalDays := 12 } (by decide) (by decide) rfl).2 rfl
    rw [h]
    decide

/-- C8: the overlap detector returns exactly the employee's requests in
status pending or approved whose inclusive date interval shares at least
one day with the candidate interval; rejected or cancelled requests and
disjoint intervals are never returned.  The hypotheses state that the
candidate range and every stored request are well-formed (start ≤ end). -/
theorem overlapDetector_spec (db : Db) (emp : Nat) (cs ce : Int) (hc : cs ≤ ce)
    (hwf : ∀ r ∈ db.leaveRequests, r.startDate ≤ r.endDate) (r : LeaveRequest) :
    r ∈ repoGetOverlappingRequests db emp cs ce ↔
      r ∈ db.leaveRequests ∧ r.employeeId = emp ∧
        (r.status = "pending" ∨ r.status = "approved") ∧
        ∃ d : Int, r.startDate ≤ d ∧ d ≤ r.endDate ∧ cs ≤ d ∧ d ≤ ce := by
  unfold repoGetOverlappingRequests
  rw [List.mem_filter]
  simp only [Bool.and_eq_true, Bool.or_eq_true, beq_iff_eq, decide_eq_true_eq,
    ge_iff_le]
  constructor
  · rintro ⟨hmem, ⟨⟨hemp, hstat⟩, hdisj⟩⟩
    have hr := hwf r hmem
    refine ⟨hmem, hemp, hstat, ?_⟩
    rcases hdisj with (⟨h1, h2⟩ | ⟨h1, h2⟩) | ⟨h1, h2⟩
    · exact ⟨r.startDate, le_refl _, hr, h1, h2⟩
    · exact ⟨r.endDate, hr, le_refl _, h1, h2⟩
    · exact ⟨cs, h1, le_trans hc h2, le_refl _, hc⟩
  · rintro ⟨hmem, hemp, hstat, d, hd1, hd2, hd3, hd4⟩
    refine ⟨hmem, ⟨⟨hemp, hstat⟩, ?_⟩⟩
    omega

/-- An existing pending request of employee 1 spanning days 1..4. -/
def reqSpan14 : LeaveRequest :=
  { id := 11, organizationId := 1, employeeId := 1, leaveTypeId := 1,
    startDate := 1, endDate := 4, days := 0, status := "pending",
    reason := "family", approvedBy := none }

/-- Store holding only `reqSpan14`. -/
def dbOverlap : Db :=
  { leaveTypes := [], leaveRequests := [reqSpan14], leaveBalances := [],
    histories := [], adjustments := [] }

/-- Witness for C8: the candidate range [day 3, day 5] picks up the
existing pending request spanning [day 1, day 4] (they share days 3-4). -/
theorem overlapDetector_spec_witness :
    reqSpan14 ∈ repoGetOverlappingRequests dbOverlap 1 3 5 :=
  (overlapDetector_spec dbOverlap 1 3 5 (by decide) (by decide) reqSpan14).mpr
    ⟨by decide, rfl, Or.inl rfl, ⟨3, by decide, by decide, by decide, by decide⟩⟩

/-- C9: `remaining_days` is a generated column — the persisted ledger state
consists only of the three counters, and the observable `remaining_days`
is always `total_days - used_days - pending_days` of the row just written.
Concretely, across every ledger-mutating operation the derived value moves
in lockstep with the counters: a reservation lowers it by the request's
day count, an approval leaves it unchanged (pending moves to used), a
rejection or cancellation raises it by the day count, and an adjustment
approval raises it by the signed delta. -/
theorem remainingDays_always_derived (db : Db) :
    (∀ req b, req.startDate ≤ req.endDate →
      findBalanceByKey db.leaveBalances req.employeeId req.leaveTypeId
          (civilYear req.startDate) = some b →
      ∃ db2 r, repoCreateLeaveRequest db req = .ok (db2, r) ∧
        db2.leaveBalances =
          saveBalance db.leaveBalances { b with pendingDays := b.pendingDays + r.days } ∧
        remainingDays { b with pendingDays := b.pendingDays + r.days } =
          b.totalDays - b.usedDays - (b.pendingDays + r.days) ∧
        remainingDays { b with pendingDays := b.pendingDays + r.days } =
          remainingDays b - r.days) ∧
    (∀ req old b, findRequestById db.leaveRequests req.id = some old →
      old.status ≠ req.status → beforeUpdate req = .ok () →
      findBalanceByKey db.leaveBalances req.employeeId req.leaveTypeId
          (civilYear req.startDate) = some b →
      ∃ db2, repoUpdateLeaveRequest db req = .ok db2 ∧
        db2.leaveBalances =
          saveBalance db.leaveBalances (applyStatusEffect b req.status req.days) ∧
        (req.status = "approved" →
          remainingDays (applyStatusEffect b req.status req.days) = remainingDays b) ∧
        (req.status = "rejected" ∨ req.status = "cancelled" →
          remainingDays (applyStatusEffect b req.status req.days) =
            remainingDays b + req.days)) ∧
    (∀ adj old b, findAdjustmentById db.adjustments adj.id = some old →
      old.status ≠ adj.status → adj.status = "approved" →
      findBalanceById db.leaveBalances adj.leaveBalanceId = some b →
      ∃ db2, repoUpdateBalanceAdjustment db adj = .ok db2 ∧
        db2.leaveBalances =
          saveBalance db.leaveBalances { b with totalDays := b.totalDays + adj.adjustment } ∧
        remainingDays { b with totalDays := b.totalDays + adj.adjustment } =
          remainingDays b + adj.adjustment) := by
  refine ⟨?_, ?_, ?_⟩
  · intro req b hrange hb
    refine ⟨_, _, repoCreateLeaveRequest_ok db req b hrange hb, rfl, rfl, ?_⟩
    simp [remainingDays]
    ring
  · intro req old b hold hne hhook hb
    refine ⟨_, repoUpdateLeaveRequest_ok db req old b hold hne hb hhook, rfl, ?_, ?_⟩
    · intro hst
      simp [applyStatusEffect, hst, remainingDays]
      ring
    · rintro (hst | hst) <;>
        · simp [applyStatusEffect, hst, remainingDays]
          ring
  · intro adj old b hold hne happ hb
    have hcond : old.status ≠ adj.status ∧ adj.status = "approved" := ⟨hne, happ⟩
    refine ⟨{ db with
              leaveBalances := saveBalance db.leaveBalances
                { b with totalDays := b.totalDays + adj.adjustment },
              adjustments := saveAdjustment db.adjustments adj }, ?_, rfl, ?_⟩
    · simp only [repoUpdateBalanceAdjustment, hold, if_pos hcond, hb]
    · simp [remainingDays]
      ring

/-- Witness for C9 on concrete data: the reservation of the three-day
request against `balA` lowers the derived remaining days from 10 to 7. -/
theorem remainingDays_always_derived_witness :
    remainingDays { balA with pendingDays := balA.pendingDays + 3 } =
      remainingDays balA - 3 ∧
    remainingDays balA = 10 ∧
    remainingDays { balA with pendingDays := 3 } = 7 := by
  obtain ⟨db2, r, hok, hbal, hform, hdelta⟩ :=
    (remainingDays_always_derived dbA).1 reqA balA (by decide) (by decide)
  have hcalc : repoCreateLeaveRequest dbA reqA =
      .ok ({ dbA with
             leaveRequests := [{ reqA with days := 3 }],
             leaveBalances := [{ balA with pendingDays := 3 }] },
           { reqA with days := 3 }) := by decide
  rw [hok] at hcalc
  injection hcalc with hpair
  injection hpair with hdb hr
  have hdays : r.days = 3 := by rw [hr]
  rw [hdays] at hdelta
  exact ⟨hdelta, by decide, by decide⟩

/-- A leave type of organization 1 allowing at most 4 days per request. -/
def ltMax4 : LeaveType :=
  { id := 1, organizationId := 1, name := "Annual", defaultDays := 20,
    minDaysNotice := 0, maxDaysPerRequest := 4 }

/-- Store holding `ltMax4` and the ledger row `balA`. -/
def dbSvc : Db :=
  { leaveTypes := [ltMax4], leaveRequests := [], leaveBalances := [balA],
    histories := [], adjustments := [] }

/-- Client payload for Monday..Friday (days 4..8): five working days but a
calendar-day difference of only 4. -/
def svcReqMonFri : CreateLeaveRequestRequest :=
  { employeeId := 1, leaveTypeId := 1, startDate := 4, endDate := 8,
    totalDays := 0, status := "pending", reason := "family", comment := "" }

/-- Counterexample to C3: with `max_days_per_request = 4`, a Monday-to-Friday
request has a working-day count of 5 — strictly above the maximum, so the
claim demands a `ValidationFailed` error — yet `CreateLeaveRequest`
succeeds, because the code validates `endDate - startDate` (here 4), not
the working-day count. -/
theorem maxDays_check_not_workingDays :
    calculateWorkingDays 4 8 = 5 ∧
    ltMax4.maxDaysPerRequest = 4 ∧
    exceptOk (serviceCreateLeaveRequest dbSvc 1 svcReqMonFri) = true := by
  refine ⟨by decide, by decide, by decide⟩

/-- C3 amended: under the other creation preconditions, `CreateLeaveRequest`
fails with the maximum-exceeded validation error exactly when the
calendar-day difference `endDate - startDate` — not the working-day count —
exceeds the leave type's `max_days_per_request`.  (The spec's concrete
scenario still fails: a 10-weekday span has a calendar difference of at
least 9 > 5.) -/
theorem maxDays_check_calendar_difference (db : Db) (orgId : Nat)
    (req : CreateLeaveRequestRequest) (lt : LeaveType)
    (h1 : req.employeeId ≠ 0) (h2 : req.leaveTypeId ≠ 0)
    (h3 : req.startDate ≤ req.endDate)
    (hlt : getLeaveType db orgId req.leaveTypeId = .ok lt) :
    serviceCreateLeaveRequest db orgId req = .error .maxDaysExceeded ↔
      lt.maxDaysPerRequest < req.endDate - req.startDate := by
  have h3' : ¬ (req.endDate < req.startDate) := by omega
  simp only [serviceCreateLeaveRequest, if_neg h1, if_neg h2, if_neg h3', hlt]
  by_cases hmax : lt.maxDaysPerRequest < req.endDate - req.startDate
  · simp [hmax]
  · simp only [if_neg hmax]
    constructor
    · intro h
      split at h <;> simp_all
    · intro h
      exact absurd h hmax

/-- Client payload spanning ten weekdays (Monday day 4 to Friday day 18):
the spec scenario for the 5-day maximum. -/
def svcReqTenWeekdays : CreateLeaveRequestRequest :=
  { svcReqMonFri with endDate := 18 }

/-- A leave type of organization 1 allowing at most 5 days per request. -/
def ltMax5 : LeaveType :=
  { ltMax4 with maxDaysPerRequest := 5 }

/-- Store holding `ltMax5` and the ledger row `balA`. -/
def dbSvc5 : Db :=
  { dbSvc with leaveTypes := [ltMax5] }

/-- Witness for the amended C3: the ten-weekday request (calendar
difference 14 > 5) is rejected with the maximum-exceeded error. -/
theorem maxDays_check_calendar_difference_witness :
    serviceCreateLeaveRequest dbSvc5 1 svcReqTenWeekdays =
      .error .maxDaysExceeded :=
  (maxDays_check_calendar_difference dbSvc5 1 svcReqTenWeekdays ltMax5
    (by decide) (by decide) (by decide) (by decide)).mpr (by decide)

/-- C10: the service never reads the client-supplied `TotalDays` and
`Status` fields — two payloads differing only there produce identical
outcomes and identical stores — and every successfully created request
comes back with status `pending` and its day count frozen to the
working-day count of the requested range. -/
theorem clientSupplied_status_and_totalDays_ignored (db : Db) (orgId : Nat)
    (req : CreateLeaveRequestRequest) (td : Int) (st : String) :
    serviceCreateLeaveRequest db orgId { req with totalDays := td, status := st } =
      serviceCreateLeaveRequest db orgId req ∧
    (∀ db2 r, serviceCreateLeaveRequest db orgId req = .ok (db2, r) →
      r.status = "pending" ∧
      r.days = calculateWorkingDays req.startDate req.endDate) := by
  constructor
  · rfl
  · intro db2 r h
    unfold serviceCreateLeaveRequest at h
    by_cases h1 : req.employeeId = 0
    · rw [if_pos h1] at h
      exact absurd h (by simp)
    rw [if_neg h1] at h
    by_cases h2 : req.leaveTypeId = 0
    · rw [if_pos h2] at h
      exact absurd h (by simp)
    rw [if_neg h2] at h
    by_cases h3 : req.endDate < req.startDate
    · rw [if_pos h3] at h
      exact absurd h (by simp)
    rw [if_neg h3] at h
    split at h
    · exact absurd h (by simp)
    split at h
    · exact absurd h (by simp)
    split at h
    · exact absurd h (by simp)
    · rename_i res heq
      rw [Except.ok.injEq] at h
      have hr2 : r = res.2 := by rw [h]
      have hr := repoCreateLeaveRequest_ok_inv db (requestFromPayload req)
        res.1 res.2 (by rw [heq])
      rw [hr2, hr]
      exact ⟨rfl, rfl⟩

/-- The request row `CreateLeaveRequest` persists for `svcReqMonFri`-shaped
input with a two-day range (Monday to Wednesday). -/
def svcReqMonWed : CreateLeaveRequestRequest :=
  { svcReqMonFri with endDate := 6 }

/-- The store and row resulting from creating `svcReqMonWed` on `dbSvc`. -/
def createdMonWed : LeaveRequest :=
  { id := 0, organizationId := 0, employeeId := 1, leaveTypeId := 1,
    startDate := 4, endDate := 6, days := 3, status := "pending",
    reason := "family", approvedBy := none }

/-- Store after that creation. -/
def dbSvcAfter : Db :=
  { dbSvc with
    leaveRequests := [createdMonWed],
    leaveBalances := [{ balA with pendingDays := 3 }] }

/-- Witness for C10: a payload claiming `TotalDays = 99` and
`Status = "approved"` produces the same outcome as the plain payload, and
the created row has status `pending` with 3 (working) days. -/
theorem clientSupplied_status_and_totalDays_ignored_witness :
    serviceCreateLeaveRequest dbSvc 1
        { svcReqMonWed with totalDays := 99, status := "approved" } =
      serviceCreateLeaveRequest dbSvc 1 svcReqMonWed ∧
    createdMonWed.status = "pending" ∧
    createdMonWed.days = calculateWorkingDays 4 6 :=
  ⟨(clientSupplied_status_and_totalDays_ignored dbSvc 1 svcReqMonWed 99 "approved").1,
   (clientSupplied_status_and_totalDays_ignored dbSvc 1 svcReqMonWed 99 "approved").2
     dbSvcAfter createdMonWed (by decide)⟩

end LeaveManagement
